import Mathlib

/-!
Shallow embedding of the protocol core of the minecraft-maintenance-proxy
repository (src/src/proxy.rs), together with theorems settling the frozen
claims about its natural-language specification.

Conventions of the embedding:
* Bytes are `Nat` values below 256; byte buffers are `List Nat`.
* Rust `i32` values are represented by their 32-bit two's-complement bit
  pattern, a `Nat` below 2^32 (so Rust `-1` is `0xffffffff`); wrap-around is
  made explicit with `% 2^w` / `&&& 0xffffffff` masks where the Rust code can
  overflow or truncate.
* nom's streaming combinators return `Err::Incomplete` on short input and
  `Err::Failure(TooLarge)` on varint overflow; both are explicit error values
  here.  Rust panics (`unwrap` on an error, `assert_eq!`, `unimplemented!()`)
  are explicit result constructors, never Lean failures.
* `String::from_utf8_lossy` never fails, so text fields are kept as their raw
  byte lists; no claim inspects the decoded text of a field.
* The per-connection loop of `process_socket` (responder mode) is modelled as
  a function of the list of chunks successive `read_buf` calls deliver; an
  exhausted chunk list, like a zero-length read, ends the session.
-/

namespace MaintenanceProxy

/-- Connection states of `proxy.rs` (`enum ConnectionState`). -/
inductive ConnectionState where
  | Handshaking
  | Status
  | Login
  | Play
deriving DecidableEq, Repr

/-- Error conditions of the nom-based decoders: `incomplete` is nom's
streaming `Err::Incomplete`, `overflow` is the `ErrorKind::TooLarge` failure
raised by `parse_varint` when the bit position would exceed 32. -/
inductive VarintError where
  | incomplete
  | overflow
deriving DecidableEq, Repr

/-- `SEGMENT_BITS` constant of `proxy.rs`. -/
def SEGMENT_BITS : Nat := 0x7f

/-- `CONTINUE_BIT` constant of `proxy.rs`. -/
def CONTINUE_BIT : Nat := 0x80

/-- Loop body of `parse_varint` (proxy.rs lines 89-113).  `value` is the
accumulated 32-bit pattern, `pos` the current bit position.  Each step reads
one byte with `be_u8` (incomplete on empty input), ORs its low 7 bits into
`value` at `pos` (an i32 shift/or, hence the 32-bit mask), returns when the
continuation bit is clear, and fails with `TooLarge` when the incremented
position exceeds 32. -/
def parseVarintAux : List Nat → Nat → Nat → Except VarintError (List Nat × Nat)
  | [], _, _ => .error .incomplete
  | b :: rest, value, pos =>
    let value' := (value ||| ((b &&& SEGMENT_BITS) <<< pos)) &&& 0xffffffff
    if b &&& CONTINUE_BIT = 0 then .ok (rest, value')
    else if pos + 7 > 32 then .error .overflow
    else parseVarintAux rest value' (pos + 7)

/-- `parse_varint` of proxy.rs: decode a variable-length integer, returning
the unconsumed input and the decoded 32-bit pattern. -/
def parse_varint (input : List Nat) : Except VarintError (List Nat × Nat) :=
  parseVarintAux input 0 0

/-- Arithmetic shift right by 7 of a 32-bit two's-complement pattern: Rust's
`value >>= 7` on `i32` (sign-extending, so the top 7 bits repeat the sign
bit). -/
def asr7 (v : Nat) : Nat :=
  if v < 2 ^ 31 then v / 128 else v / 128 + (2 ^ 32 - 2 ^ 25)

/-- `write_varint` of proxy.rs (lines 115-132), with an explicit fuel
parameter because the source loop (`value >>= 7` on an `i32`) does not
terminate for every input.  Returns the bytes appended to the buffer and the
returned byte count, or `none` when `fuel` iterations do not suffice.  Each
iteration takes the low byte `current_value = value & 0xFF`; if its high bit
is clear (`current_value & !SEGMENT_BITS == 0`) that byte is written and the
loop returns, otherwise `(current_value & SEGMENT_BITS) | CONTINUE_BIT` is
written and `value` is arithmetically shifted right by 7. -/
def write_varint : Nat → Nat → Option (List Nat × Nat)
  | 0, _ => none
  | fuel + 1, value =>
    let current := value % 256
    if current &&& CONTINUE_BIT = 0 then some ([current], 1)
    else
      match write_varint fuel (asr7 value) with
      | none => none
      | some (bs, n) => some (((current &&& SEGMENT_BITS) ||| CONTINUE_BIT) :: bs, n + 1)

/-- Rust `as usize` cast of an `i32` bit pattern on a 64-bit target:
sign-extension, so negative values become huge. -/
def castUsize (v : Nat) : Nat :=
  if v < 2 ^ 31 then v else 2 ^ 64 - 2 ^ 32 + v

/-- nom streaming `be_u16`: two big-endian bytes. -/
def be_u16 : List Nat → Except VarintError (List Nat × Nat)
  | a :: b :: rest => .ok (rest, a * 256 + b)
  | _ => .error .incomplete

/-- nom streaming `be_i64`: eight big-endian bytes, kept as the 64-bit
pattern. -/
def be_i64 : List Nat → Except VarintError (List Nat × Nat)
  | b0 :: b1 :: b2 :: b3 :: b4 :: b5 :: b6 :: b7 :: rest =>
    .ok (rest, ((((((b0 * 256 + b1) * 256 + b2) * 256 + b3) * 256 + b4) * 256
      + b5) * 256 + b6) * 256 + b7)
  | _ => .error .incomplete

/-- `parse_string` of proxy.rs: a varint length header followed by that many
raw bytes (`take` is nom streaming, incomplete on short input; the length is
used `as usize`).  The `_maxSize` argument is ignored, exactly as in the
source.  The text is kept as its raw bytes (`from_utf8_lossy` never fails). -/
def parse_string (_maxSize : Nat) (input : List Nat) :
    Except VarintError (List Nat × List Nat) :=
  match parse_varint input with
  | .error e => .error e
  | .ok (input, len) =>
    let n := castUsize len
    if input.length < n then .error .incomplete
    else .ok (input.drop n, input.take n)

/-- `enum ServerboundPacket` of proxy.rs.  i32 fields carry their 32-bit
patterns; text fields carry raw bytes. -/
inductive ServerboundPacket where
  | Handshake (protocol_version : Nat) (server_address : List Nat)
      (server_port : Nat) (next_state : Nat)
  | StatusRequest
  | PingRequest (payload : Nat)
  | LoginStart (username : List Nat)
deriving DecidableEq, Repr

/-- Result of `parse_packet`: success with unconsumed input, a propagated nom
error, or the `unimplemented!()` panic the source raises on an unsupported
(state, packet id) pair. -/
inductive PacketParseResult where
  | ok (rest : List Nat) (packet : ServerboundPacket)
  | err (e : VarintError)
  | panicUnimpl
deriving DecidableEq, Repr

/-- Body of the `(Handshaking, 0x00)` arm of `parse_packet`: reads
protocol_version (varint), server_address (string), server_port (be_u16) and
next_state (varint) in order. -/
def parseHandshake (input : List Nat) : PacketParseResult :=
  match parse_varint input with
  | .error e => .err e
  | .ok (input, protocol_version) =>
    match parse_string 255 input with
    | .error e => .err e
    | .ok (input, server_address) =>
      match be_u16 input with
      | .error e => .err e
      | .ok (input, server_port) =>
        match parse_varint input with
        | .error e => .err e
        | .ok (input, next_state) =>
          .ok input (.Handshake protocol_version server_address server_port next_state)

/-- `parse_packet` of proxy.rs (lines 141-200): a leading varint packet id,
then dispatch on (connection state, id).  Any unsupported combination hits
`unimplemented!()`. -/
def parse_packet (input : List Nat) (connection_state : ConnectionState) :
    PacketParseResult :=
  match parse_varint input with
  | .error e => .err e
  | .ok (input, packet_id) =>
    match connection_state, packet_id with
    | .Handshaking, 0 => parseHandshake input
    | .Status, 0 => .ok input .StatusRequest
    | .Status, 1 =>
      match be_i64 input with
      | .error e => .err e
      | .ok (input, payload) => .ok input (.PingRequest payload)
    | .Login, 0 =>
      match parse_string 16 input with
      | .error e => .err e
      | .ok (input, username) => .ok input (.LoginStart username)
    | _, _ => .panicUnimpl

/-- The (state, packet id) pairs `parse_packet` supports; every other pair
reaches `unimplemented!()`. -/
def supportedPacket : ConnectionState → Nat → Bool
  | .Handshaking, 0 => true
  | .Status, 0 => true
  | .Status, 1 => true
  | .Login, 0 => true
  | _, _ => false

/-- `PACKET_MAX_SIZE` constant of proxy.rs. -/
def PACKET_MAX_SIZE : Nat := 2097151

/-- `PACKET_LENGTH_FIELD_MAX_SIZE` constant of proxy.rs. -/
def PACKET_LENGTH_FIELD_MAX_SIZE : Nat := 3

/-- Outcome of one pass over the length header in the `'parse_packets` loop
of `process_socket` (lines 278-303): `wait` breaks the loop to read more
data, `fail` is the panic of `parse_varint(..).unwrap()` on an incomplete
header, `frame` extracts a frame with the given header length and declared
packet length. -/
inductive FrameStep where
  | wait
  | fail
  | frame (headerLen packetLen : Nat)
deriving DecidableEq, Repr

/-- Length-header handling of the `'parse_packets` loop: empty buffer waits;
otherwise `parse_varint` runs on the first
`PACKET_LENGTH_FIELD_MAX_SIZE.clamp(1, buf.len())` bytes and is unwrapped
(incomplete input panics); a fully consumed slice ("not enough data after the
length field") waits; a buffer shorter than header plus declared length
waits; otherwise the frame is extracted. -/
def frameStep (buf : List Nat) : FrameStep :=
  if buf.isEmpty then .wait
  else
    let provisional := max 1 (min PACKET_LENGTH_FIELD_MAX_SIZE buf.length)
    match parse_varint (buf.take provisional) with
    | .error _ => .fail
    | .ok (remainder, packet_length) =>
      if remainder.length = 0 then .wait
      else
        let headerLen := provisional - remainder.length
        if buf.length < castUsize packet_length + headerLen then .wait
        else .frame headerLen (castUsize packet_length)

/-- Replies the responder writes back, identified by their payload; the
DisconnectResponse carries its reason text verbatim. -/
inductive Event where
  | StatusResponse (protocol : Nat)
  | PingResponse (payload : Nat)
  | DisconnectResponse (reason : String)
deriving DecidableEq, Repr

/-- The ways the responder loop can panic: unwrapping the length-header
varint, unwrapping `parse_packet`, the `assert_eq!(previous_data.len(), 0)`
leftover assertion, `unimplemented!()` on an unsupported packet, and
`protocol_version.unwrap()` when no Handshake preceded a StatusRequest. -/
inductive CrashKind where
  | headerUnwrap
  | packetUnwrap
  | leftoverAssert
  | unimplementedPacket
  | pvNone
deriving DecidableEq, Repr

/-- Result of running the `'parse_packets` loop to completion on the current
buffer: `more` breaks out to read more data (carrying buffer, state,
protocol_version and the replies written so far), `crashed` is a panic,
`fuelOut` means the fuel bound was hit. -/
inductive InnerRes where
  | more (buf : List Nat) (st : ConnectionState) (pv : Option Nat) (evs : List Event)
  | crashed (k : CrashKind) (evs : List Event)
  | fuelOut (evs : List Event)
deriving DecidableEq, Repr

/-- The literal disconnect reason of proxy.rs line 372 (note the space after
the colon). -/
def disconnectReason : String :=
  "\x7b\"text\": \"Server is currently in maintenance\"\x7d"

/-- The disconnect JSON as spelled in section 6 of the spec (no space after
the colon); written from the spec's words, for comparison with
`disconnectReason`. -/
def specDisconnectReason : String :=
  "\x7b\"text\":\"Server is currently in maintenance\"\x7d"

/-- The `'parse_packets` loop of `process_socket` (lines 278-380): extract a
frame, `parse_packet(..).unwrap()` it, assert zero leftover bytes, then
dispatch.  Handshake stores `protocol_version` and moves to Status/Login on
next_state 1/2, any other value logs and breaks the loop (the buffer keeps
the remaining bytes, the connection stays open); StatusRequest unwraps the
stored protocol_version and writes a StatusResponse; PingRequest echoes its
payload; LoginStart writes the fixed DisconnectResponse.  Fuel bounds the
iteration count (each extracted frame consumes at least its one-byte header,
so `buf.length + 1` is always enough). -/
def innerLoop : Nat → List Nat → ConnectionState → Option Nat → List Event → InnerRes
  | 0, _, _, _, evs => .fuelOut evs
  | fuel + 1, buf, st, pv, evs =>
    match frameStep buf with
    | .wait => .more buf st pv evs
    | .fail => .crashed .headerUnwrap evs
    | .frame headerLen packetLen =>
      let packetBuf := (buf.drop headerLen).take packetLen
      let rest := buf.drop (headerLen + packetLen)
      match parse_packet packetBuf st with
      | .err _ => .crashed .packetUnwrap evs
      | .panicUnimpl => .crashed .unimplementedPacket evs
      | .ok leftover packet =>
        if leftover.length ≠ 0 then .crashed .leftoverAssert evs
        else
          match packet with
          | .Handshake protocol_version _ _ next_state =>
            if next_state = 1 then innerLoop fuel rest .Status (some protocol_version) evs
            else if next_state = 2 then innerLoop fuel rest .Login (some protocol_version) evs
            else .more rest st (some protocol_version) evs
          | .StatusRequest =>
            match pv with
            | none => .crashed .pvNone evs
            | some p => innerLoop fuel rest st pv (evs ++ [.StatusResponse p])
          | .PingRequest payload =>
            innerLoop fuel rest st pv (evs ++ [.PingResponse payload])
          | .LoginStart _ =>
            innerLoop fuel rest st pv (evs ++ [.DisconnectResponse disconnectReason])

/-- How a responder-mode session ends: end of input (`read_buf` returned 0 or
no more chunks), a panic, or inner-loop fuel exhaustion. -/
inductive Outcome where
  | eof
  | crashed (k : CrashKind)
  | fuelOut
deriving DecidableEq, Repr

/-- Final outcome and emitted replies of a responder-mode session. -/
structure SessionResult where
  outcome : Outcome
  events : List Event
deriving DecidableEq, Repr

/-- The outer read loop of `process_socket` in responder mode: each chunk is
what one `read_buf` call appends to the buffer (an empty chunk is a
zero-length read, i.e. EOF), after which the `'parse_packets` loop runs to
completion. -/
def sessionLoop : List (List Nat) → List Nat → ConnectionState → Option Nat →
    List Event → SessionResult
  | [], _, _, _, evs => ⟨.eof, evs⟩
  | chunk :: chunks, buf, st, pv, evs =>
    if chunk.isEmpty then ⟨.eof, evs⟩
    else
      let buf' := buf ++ chunk
      match innerLoop (buf'.length + 1) buf' st pv evs with
      | .more buf'' st' pv' evs' => sessionLoop chunks buf'' st' pv' evs'
      | .crashed k evs' => ⟨.crashed k, evs'⟩
      | .fuelOut evs' => ⟨.fuelOut, evs'⟩

/-- A whole responder-mode session from the initial state of
`process_socket`: `Handshaking`, no protocol_version, empty buffer. -/
def runSession (chunks : List (List Nat)) : SessionResult :=
  sessionLoop chunks [] ConnectionState.Handshaking none []

/-- `process_control_socket` of proxy.rs (lines 392-414) as a function of the
chunks successive reads deliver: an empty read ends the connection; after
each read, exactly when the accumulated buffer holds one byte, that byte is
consumed and `is_proxy = (byte == 1)` is published on the watch channel.
Returns the published values in order. -/
def controlRun : List (List Nat) → List Nat → List Bool → List Bool
  | [], _, out => out
  | chunk :: chunks, buf, out =>
    if chunk.isEmpty then out
    else
      match buf ++ chunk with
      | [b] => controlRun chunks [] (out ++ [b == 1])
      | buf' => controlRun chunks buf' out

/-- The replies accumulated in an inner-loop result. -/
def InnerRes.eventsOf : InnerRes → List Event
  | .more _ _ _ evs => evs
  | .crashed _ evs => evs
  | .fuelOut evs => evs

/-- Invariant of the responder loop: once the connection has left the
Handshaking state, a protocol_version has been stored. -/
def pvInvariant (st : ConnectionState) (pv : Option Nat) : Prop :=
  st ≠ ConnectionState.Handshaking → pv ≠ none

/-- An inner-loop result respects the protocol_version invariant: it is not
the `protocol_version.unwrap()` panic, and a loop exit waiting for more data
carries a state/protocol_version pair satisfying `pvInvariant`. -/
def InnerRes.pvSafe : InnerRes → Prop
  | .crashed k _ => k ≠ CrashKind.pvNone
  | .more _ s p _ => pvInvariant s p
  | .fuelOut _ => True

/-! ## Shared helper lemmas -/

/-- A byte below 128 has the continuation bit clear. -/
theorem and_continue_eq_zero_of_lt {b : Nat} (h : b < 128) : b &&& CONTINUE_BIT = 0 := by
  have h2 := Nat.and_two_pow b 7
  rw [Nat.testBit_lt_two_pow h] at h2
  simpa [CONTINUE_BIT] using h2

/-- Masking a byte below 128 with the segment bits is the identity. -/
theorem and_segment_eq_self_of_lt {b : Nat} (h : b < 128) : b &&& SEGMENT_BITS = b := by
  have h2 : b &&& (2 ^ 7 - 1) = b % 2 ^ 7 := Nat.and_pow_two_sub_one_eq_mod b 7
  simpa [SEGMENT_BITS, Nat.mod_eq_of_lt h] using h2

/-- A successful varint decode consumes at least one byte. -/
theorem parseVarintAux_consumes :
    ∀ (input : List Nat) (v p : Nat) (rest : List Nat) (w : Nat),
      parseVarintAux input v p = .ok (rest, w) → rest.length < input.length := by
  intro input
  induction input with
  | nil => intro v p rest w h; simp [parseVarintAux] at h
  | cons b t ih =>
    intro v p rest w h
    simp only [parseVarintAux] at h
    split at h
    · obtain ⟨rfl, rfl⟩ := by simpa using h
      simp
    · split at h
      · simp at h
      · have := ih _ _ _ _ h
        simp only [List.length_cons]
        omega

/-- Byte-count bound for the varint decode loop: starting at a legal bit
position, at most `(39 - p) / 7` bytes are consumed. -/
theorem parseVarintAux_bounded :
    ∀ (input : List Nat) (v p : Nat) (rest : List Nat) (w : Nat),
      7 ∣ p → p ≤ 28 → parseVarintAux input v p = .ok (rest, w) →
      7 * (input.length - rest.length) ≤ 39 - p := by
  intro input
  induction input with
  | nil => intro v p rest w _ _ h; simp [parseVarintAux] at h
  | cons b t ih =>
    intro v p rest w hdvd hle h
    simp only [parseVarintAux] at h
    split at h
    · obtain ⟨rfl, rfl⟩ := by simpa using h
      simp only [List.length_cons]
      omega
    · split at h
      · simp at h
      · rename_i hcont hpos
        have hp7 : p + 7 ≤ 32 := by omega
        have hrec := ih _ _ _ _ (by omega) (by omega) h
        have hcons := parseVarintAux_consumes _ _ _ _ _ h
        simp only [List.length_cons]
        omega

/-- A varint decoded from a slice of at most 3 bytes that does not consume
the whole slice has at most two 7-bit groups, hence is below 2^14. -/
theorem parse_varint_small_value :
    ∀ (t : List Nat) (rem : List Nat) (v : Nat),
      t.length ≤ 3 → parse_varint t = .ok (rem, v) → rem ≠ [] → v < 2 ^ 14 := by
  intro t rem v hlen h hrem
  match t with
  | [] => simp [parse_varint, parseVarintAux] at h
  | b0 :: t0 =>
    simp only [parse_varint, parseVarintAux] at h
    have hseg : ∀ x y : Nat, x &&& SEGMENT_BITS &&& y < 2 ^ 14 := fun x y =>
      lt_of_le_of_lt (le_trans Nat.and_le_left Nat.and_le_right)
        (by norm_num [SEGMENT_BITS])
    have hshift : ∀ x : Nat, (x &&& SEGMENT_BITS) <<< 7 < 2 ^ 14 := by
      intro x
      rw [Nat.shiftLeft_eq]
      have : x &&& SEGMENT_BITS ≤ SEGMENT_BITS := Nat.and_le_right
      norm_num [SEGMENT_BITS] at this ⊢
      omega
    split at h
    · obtain ⟨rfl, rfl⟩ := by simpa using h
      exact hseg b0 _
    · rw [if_neg (by omega)] at h
      match t0 with
      | [] => simp [parseVarintAux] at h
      | b1 :: t1 =>
        simp only [parseVarintAux] at h
        split at h
        · obtain ⟨rfl, rfl⟩ := by simpa using h
          exact lt_of_le_of_lt Nat.and_le_left
            (Nat.or_lt_two_pow (hseg b0 _) (hshift b1))
        · rw [if_neg (by omega)] at h
          match t1 with
          | [] => simp [parseVarintAux] at h
          | b2 :: t2 =>
            have ht2 : t2 = [] := by
              simp only [List.length_cons] at hlen
              exact List.eq_nil_of_length_eq_zero (by omega)
            subst ht2
            simp only [parseVarintAux] at h
            split at h
            · obtain ⟨rfl, rfl⟩ := by simpa using h
              exact absurd rfl hrem
            · rw [if_neg (by omega)] at h
              simp [parseVarintAux] at h

/-! ## C1: varint encode/decode round trip -/

/-- C1: the claim that encoding any 32-bit signed integer with
`write_varint` terminates and round-trips through `parse_varint` fails on
the code.  This theorem evaluates the code at the failing inputs: encoding
`-1` (pattern `0xffffffff`) never terminates for any fuel, because the
arithmetic shift `value >>= 7` keeps the value at `-1`; and encoding `256`
stops after one byte (the termination test `current_value & !SEGMENT_BITS ==
0` looks only at the low byte of the value), emitting `[0x00]`, which
decodes to `0`, not `256`. -/
theorem C1_write_varint_roundtrip_fails :
    (∀ fuel, write_varint fuel 0xffffffff = none) ∧
    write_varint 5 256 = some ([0], 1) ∧
    parse_varint [0] = .ok ([], 0) := by
  refine ⟨?_, rfl, rfl⟩
  intro fuel
  induction fuel with
  | zero => rfl
  | succ n ih =>
    have h1 : asr7 0xffffffff = 0xffffffff := by decide
    simp only [write_varint, h1, ih]
    norm_num [CONTINUE_BIT]
    intro hc
    exact absurd hc (by decide)

/-! ## C3: varint decode terminates within 5 bytes; overflow on 6+ groups -/

/-- C3: variable-length integer decoding consumes at most 5 bytes on
success, and any input whose continuation bit stays set for 6 or more
leading groups fails with the Overflow condition (the decode loop is
structurally terminating, so it never loops indefinitely). -/
theorem C3_varint_decode_bounded :
    (∀ (input rest : List Nat) (w : Nat), parse_varint input = .ok (rest, w) →
        input.length ≤ rest.length + 5) ∧
    (∀ input : List Nat, 6 ≤ input.length →
        (∀ b ∈ input.take 6, b &&& CONTINUE_BIT ≠ 0) →
        parse_varint input = .error .overflow) := by
  constructor
  · intro input rest w h
    have := parseVarintAux_bounded input 0 0 rest w ⟨0, rfl⟩ (by omega) h
    omega
  · intro input hlen hcont
    match input with
    | b0 :: b1 :: b2 :: b3 :: b4 :: rest =>
      have h0 : b0 &&& CONTINUE_BIT ≠ 0 := hcont b0 (by simp [List.take])
      have h1 : b1 &&& CONTINUE_BIT ≠ 0 := hcont b1 (by simp [List.take])
      have h2 : b2 &&& CONTINUE_BIT ≠ 0 := hcont b2 (by simp [List.take])
      have h3 : b3 &&& CONTINUE_BIT ≠ 0 := hcont b3 (by simp [List.take])
      have h4 : b4 &&& CONTINUE_BIT ≠ 0 := hcont b4 (by simp [List.take])
      simp only [parse_varint, parseVarintAux]
      rw [if_neg h0, if_neg (by norm_num), if_neg h1, if_neg (by norm_num),
        if_neg h2, if_neg (by norm_num), if_neg h3, if_neg (by norm_num),
        if_neg h4, if_pos (by norm_num)]
    | [] | [_] | [_, _] | [_, _, _] | [_, _, _, _] => simp at hlen

/-- Witness for C3 at concrete inputs: `[5]` decodes consuming one byte, and
six continuation bytes overflow. -/
theorem C3_varint_decode_bounded_witness :
    ([5] : List Nat).length ≤ ([] : List Nat).length + 5 ∧
    parse_varint [128, 128, 128, 128, 128, 128] = .error .overflow :=
  ⟨C3_varint_decode_bounded.1 [5] [] 5 rfl,
   C3_varint_decode_bounded.2 [128, 128, 128, 128, 128, 128] (by norm_num)
     (by decide)⟩

/-! ## C8: every extracted packet length is in bounds -/

/-- C8: every packet length the streaming frame decoder extracts from a
length header is nonnegative as an i32 (pattern below 2^31) and never
exceeds `PACKET_MAX_SIZE`.  The header slice holds at most 3 bytes and a
frame is extracted only when the header leaves a nonempty remainder, so at
most two 7-bit groups contribute and the length is below 2^14. -/
theorem C8_extracted_length_bounded :
    ∀ (buf : List Nat) (headerLen packetLen : Nat),
      frameStep buf = .frame headerLen packetLen →
      packetLen ≤ PACKET_MAX_SIZE ∧ packetLen < 2 ^ 31 := by
  intro buf headerLen packetLen h
  simp only [frameStep] at h
  split at h
  · simp at h
  · rename_i hne
    split at h
    · simp at h
    · rename_i rem plen heq
      split at h
      · simp at h
      · rename_i hrem
        split at h
        · simp at h
        · obtain ⟨rfl, rfl⟩ := by simpa using h
          have hlen3 : (buf.take (max 1 (min PACKET_LENGTH_FIELD_MAX_SIZE
              buf.length))).length ≤ 3 := by
            rw [List.length_take]
            have hb : 1 ≤ buf.length := by
              cases buf with
              | nil => simp at hne
              | cons a t => simp
            simp only [PACKET_LENGTH_FIELD_MAX_SIZE]
            omega
          have hsmall := parse_varint_small_value _ _ _ hlen3 heq
            (by intro hnil; rw [hnil] at hrem; simp at hrem)
          have hcast : castUsize plen = plen := by
            rw [castUsize, if_pos (by norm_num at hsmall ⊢; omega)]
          rw [hcast]
          constructor
          · norm_num [PACKET_MAX_SIZE] at hsmall ⊢; omega
          · norm_num at hsmall ⊢; omega

/-- Witness for C8: the buffer `[1, 0]` extracts a frame with header length
1 and packet length 1, which is in bounds. -/
theorem C8_extracted_length_bounded_witness :
    (1 : Nat) ≤ PACKET_MAX_SIZE ∧ (1 : Nat) < 2 ^ 31 :=
  C8_extracted_length_bounded [1, 0] 1 1 rfl

/-- Masking an i32 pattern below 2^32 with `0xffffffff` is the identity. -/
theorem and_mask32_eq_self {v : Nat} (h : v < 2 ^ 32) : v &&& 0xffffffff = v := by
  have h2 := Nat.and_pow_two_sub_one_eq_mod v 32
  norm_num at h2
  rw [h2, Nat.mod_eq_of_lt (by omega)]

/-- A buffer whose first byte is a one-byte length header `L` (continuation
bit clear) followed by at least `L` further bytes, with at least one byte
after the header, extracts a frame of header length 1 and packet length
`L`. -/
theorem frameStep_cons {L : Nat} (data : List Nat) (hL : L < 128)
    (hlen : L ≤ data.length) (hne : 1 ≤ data.length) :
    frameStep (L :: data) = .frame 1 L := by
  have hc : L &&& CONTINUE_BIT = 0 := and_continue_eq_zero_of_lt hL
  have hs : L &&& SEGMENT_BITS = L := and_segment_eq_self_of_lt hL
  have hm : L &&& 0xffffffff = L := and_mask32_eq_self (by omega)
  have hcast : castUsize L = L := by rw [castUsize, if_pos (by omega)]
  match data with
  | [] => simp at hne
  | [d1] =>
    have hprov : max 1 (min PACKET_LENGTH_FIELD_MAX_SIZE (L :: [d1]).length) = 2 := by
      simp [PACKET_LENGTH_FIELD_MAX_SIZE]
    have hparse : parse_varint [L, d1] = .ok ([d1], L) := by
      simp only [parse_varint, parseVarintAux]
      rw [if_pos hc]
      simp [hs, hm]
    have hlen1 : L ≤ 1 := by simpa using hlen
    simp only [frameStep, hprov]
    rw [if_neg (by simp)]
    have htake : (L :: [d1]).take 2 = [L, d1] := by simp
    rw [htake, hparse]
    simp only [hcast, List.length_cons, List.length_nil]
    rw [if_neg (by omega), if_neg (by omega)]
  | d1 :: d2 :: data' =>
    have hprov : max 1 (min PACKET_LENGTH_FIELD_MAX_SIZE
        (L :: d1 :: d2 :: data').length) = 3 := by
      simp [PACKET_LENGTH_FIELD_MAX_SIZE]
    have hparse : parse_varint [L, d1, d2] = .ok ([d1, d2], L) := by
      simp only [parse_varint, parseVarintAux]
      rw [if_pos hc]
      simp [hs, hm]
    have hlen2 : L ≤ data'.length + 2 := by simpa using hlen
    simp only [frameStep, hprov]
    rw [if_neg (by simp)]
    have htake : (L :: d1 :: d2 :: data').take 3 = [L, d1, d2] := by simp
    rw [htake, hparse]
    simp only [hcast, List.length_cons, List.length_nil]
    rw [if_neg (by omega), if_neg (by omega)]

/-! ## C2: the frame decoder on fragmented valid frames -/

/-- C2: the claim that feeding a valid frame to the streaming decoder split
at arbitrary chunk boundaries never fails or panics on an incomplete prefix
fails on the code.  First conjunct: delivering the first byte `0x80` of a
two-byte length header (the header of any frame of length 128..16383) makes
`process_socket` call `.unwrap()` on nom's `Incomplete` and panic.  Second
conjunct: a frame whose length header occupies 3 bytes is never extracted at
all — the header slice is fully consumed, which the code treats as "not
enough data", no matter how much data follows — so such a frame never
yields a packet. -/
theorem C2_incomplete_header_crashes :
    runSession [[0x80]] = ⟨.crashed .headerUnwrap, []⟩ ∧
    ∀ rest : List Nat, frameStep (0xff :: 0xff :: 0x7f :: rest) = .wait := by
  refine ⟨rfl, ?_⟩
  intro rest
  have hprov : max 1 (min PACKET_LENGTH_FIELD_MAX_SIZE
      (0xff :: 0xff :: 0x7f :: rest).length) = 3 := by
    simp [PACKET_LENGTH_FIELD_MAX_SIZE]
  have htake : (0xff :: 0xff :: 0x7f :: rest).take 3 = [0xff, 0xff, 0x7f] := by
    simp
  have hparse : parse_varint [0xff, 0xff, 0x7f] = .ok ([], 2097151) := rfl
  simp only [frameStep, hprov]
  rw [if_neg (by simp), htake, hparse]
  simp

/-! ## C4: the zero-leftover assertion -/

/-- C4 counterexample: a client-supplied frame consisting of a StatusRequest
packet followed by one trailing byte (`0xff`) makes the
`assert_eq!(previous_data.len(), 0)` assertion fail, panicking the task —
so the assertion does not hold for arbitrary client-supplied frame
contents.  (The first chunk is a valid Handshake moving the connection to
Status.) -/
theorem C4_leftover_assert_fails_counterexample :
    runSession [[0x06, 0x00, 0x2f, 0x00, 0x00, 0x00, 0x01],
      [0x02, 0x00, 0xff]] = ⟨.crashed .leftoverAssert, []⟩ := rfl

/-- C4 amended: parsing consumes only the packet's own fields, so the
leftover after parsing equals whatever trailing bytes the client put in the
frame beyond the packet encoding — here, a Status-state frame with packet id
0 yields StatusRequest and leaves the entire tail unconsumed.  The
zero-leftover assertion therefore holds exactly for frames with no trailing
bytes and fails (a panic, per the counterexample) otherwise. -/
theorem C4_leftover_equals_trailing_bytes :
    ∀ rest : List Nat, parse_packet (0 :: rest) .Status = .ok rest .StatusRequest := by
  intro rest
  simp [parse_packet, parse_varint, parseVarintAux]

/-! ## C6: unsupported (state, packet id) pairs -/

/-- C6 counterexample: a frame with packet id 1 in the Handshaking state —
an unsupported (state, id) pair — does not make the connection close
gracefully: `parse_packet` hits `unimplemented!()` and the session model
ends in a panic, refuting the claim that such input closes the connection
while never crashing anything. -/
theorem C6_unsupported_crashes_counterexample :
    runSession [[0x01, 0x01]] = ⟨.crashed .unimplementedPacket, []⟩ := rfl

/-- C6 amended: for every (connection state, packet id) pair outside the
supported set (Handshaking/0, Status/0, Status/1, Login/0), `parse_packet`
reaches `unimplemented!()` and panics — an abrupt abort of the connection's
task rather than a logged close; the code contains no graceful handling, and
whether the process survives the task panic is decided by the async runtime,
not by this code. -/
theorem C6_unsupported_packet_hits_unimplemented :
    ∀ (st : ConnectionState) (b : Nat) (rest : List Nat),
      b < 128 → supportedPacket st b = false →
      parse_packet (b :: rest) st = .panicUnimpl := by
  intro st b rest hb hsup
  have hc : b &&& CONTINUE_BIT = 0 := and_continue_eq_zero_of_lt hb
  have hs : b &&& SEGMENT_BITS = b := and_segment_eq_self_of_lt hb
  have hm : b &&& 0xffffffff = b := and_mask32_eq_self (by omega)
  have hparse : parse_varint (b :: rest) = .ok (rest, b) := by
    simp only [parse_varint, parseVarintAux]
    rw [if_pos hc]
    simp [hs, hm]
  simp only [parse_packet, hparse]
  cases st with
  | Handshaking =>
    cases b with
    | zero => simp [supportedPacket] at hsup
    | succ n => rfl
  | Status =>
    cases b with
    | zero => simp [supportedPacket] at hsup
    | succ n =>
      cases n with
      | zero => simp [supportedPacket] at hsup
      | succ m => rfl
  | Login =>
    cases b with
    | zero => simp [supportedPacket] at hsup
    | succ n => rfl
  | Play => rfl

/-- Witness for C6: packet id 2 in the Status state is unsupported and hits
`unimplemented!()`. -/
theorem C6_unsupported_packet_hits_unimplemented_witness :
    parse_packet [2] ConnectionState.Status = .panicUnimpl :=
  C6_unsupported_packet_hits_unimplemented .Status 2 [] (by norm_num) rfl

/-! ## C7: control channel semantics -/

/-- C7 counterexample: the nonzero control byte `0x02` publishes
`is_proxy = false`, i.e. responder mode — the code compares the byte with
`== 1`, so the claim that every nonzero byte selects relay mode is false. -/
theorem C7_nonzero_byte_not_relay_counterexample :
    controlRun [[2]] [] [] = [false] ∧ (2 : Nat) ≠ 0 := ⟨rfl, by norm_num⟩

/-- Helper for C7: `controlRun` on single-byte reads, generalized over the
accumulator of published values. -/
theorem controlRun_singletons (bs : List Nat) :
    ∀ out : List Bool, controlRun (bs.map fun b => [b]) [] out =
      out ++ bs.map fun b => b == 1 := by
  induction bs with
  | nil => intro out; simp [controlRun]
  | cons b bs ih =>
    intro out
    simp [controlRun, ih]

/-- C7 amended: a mode value is published exactly when a read leaves a
single accumulated byte in the buffer, and the published value is relay
(`is_proxy = true`) precisely for the byte `0x01`: any other byte, zero or
nonzero, publishes responder mode.  For reads delivering one byte each, the
published sequence is the byte-wise comparison with 1. -/
theorem C7_single_byte_reads_publish_eq_one :
    ∀ bs : List Nat, controlRun (bs.map fun b => [b]) [] [] =
      bs.map fun b => b == 1 := by
  intro bs
  simpa using controlRun_singletons bs []

/-! ## C5: handshake next_state handling -/

/-- A single byte below 128 decodes as itself, consuming one byte. -/
theorem parse_varint_cons {b : Nat} (rest : List Nat) (hb : b < 128) :
    parse_varint (b :: rest) = .ok (rest, b) := by
  have hc : b &&& CONTINUE_BIT = 0 := and_continue_eq_zero_of_lt hb
  have hs : b &&& SEGMENT_BITS = b := and_segment_eq_self_of_lt hb
  have hm : b &&& 0xffffffff = b := and_mask32_eq_self (by omega)
  simp only [parse_varint, parseVarintAux]
  rw [if_pos hc]
  simp [hs, hm]

/-- C5 counterexample: after a Handshake with the invalid `next_state = 3`
the connection is *not* closed — the session keeps reading: a later
Handshake (next_state 1) and StatusRequest are still processed and a
StatusResponse is emitted, and the session ends only at EOF. -/
theorem C5_invalid_next_state_keeps_reading_counterexample :
    runSession [[0x06, 0x00, 0x2f, 0x00, 0x00, 0x00, 0x03],
      [0x06, 0x00, 0x2f, 0x00, 0x00, 0x00, 0x01], [0x01, 0x00]] =
      ⟨.eof, [.StatusResponse 0x2f]⟩ := rfl

/-- C5 amended: a Handshake frame (empty server_address, one-byte varints)
in the Handshaking state stores the protocol version and moves the state to
Status on `next_state = 1` and to Login on `next_state = 2`; any other
value logs the invalid state, leaves the state unchanged and merely breaks
the `'parse_packets` loop — the connection stays open and keeps reading
(`.more`), it is not closed, and the process does not crash. -/
theorem C5_handshake_next_state_dispatch :
    ∀ (fuel pvB nsB : Nat) (rest : List Nat) (pv : Option Nat) (evs : List Event),
      pvB < 128 → nsB < 128 →
      innerLoop (fuel + 1) ([6, 0, pvB, 0, 0, 0, nsB] ++ rest)
          .Handshaking pv evs =
        (if nsB = 1 then innerLoop fuel rest .Status (some pvB) evs
         else if nsB = 2 then innerLoop fuel rest .Login (some pvB) evs
         else .more rest .Handshaking (some pvB) evs) := by
  intro fuel pvB nsB rest pv evs hpvB hnsB
  have hfs : frameStep ([6, 0, pvB, 0, 0, 0, nsB] ++ rest) = .frame 1 6 := by
    have h := frameStep_cons (L := 6) ([0, pvB, 0, 0, 0, nsB] ++ rest)
      (by norm_num) (by simp) (by simp)
    simpa using h
  have hdrop1 : (([6, 0, pvB, 0, 0, 0, nsB] : List Nat) ++ rest).drop 1 =
      [0, pvB, 0, 0, 0, nsB] ++ rest := by simp
  have htake6 : (([0, pvB, 0, 0, 0, nsB] : List Nat) ++ rest).take 6 =
      [0, pvB, 0, 0, 0, nsB] := by simp
  have hdrop7 : (([6, 0, pvB, 0, 0, 0, nsB] : List Nat) ++ rest).drop 7 = rest := by
    simp
  have hpp : parse_packet [0, pvB, 0, 0, 0, nsB] .Handshaking =
      .ok [] (.Handshake pvB [] 0 nsB) := by
    have h1 : parse_varint [0, pvB, 0, 0, 0, nsB] = .ok ([pvB, 0, 0, 0, nsB], 0) :=
      parse_varint_cons _ (by norm_num)
    have h2 : parse_varint [pvB, 0, 0, 0, nsB] = .ok ([0, 0, 0, nsB], pvB) :=
      parse_varint_cons _ hpvB
    have h3 : parse_varint [0, 0, 0, nsB] = .ok ([0, 0, nsB], 0) :=
      parse_varint_cons _ (by norm_num)
    have h4 : parse_varint [nsB] = .ok ([], nsB) := parse_varint_cons _ hnsB
    simp [parse_packet, parseHandshake, parse_string, be_u16, castUsize,
      h1, h2, h3, h4]
  simp only [innerLoop, hfs, hdrop1, htake6, hdrop7, hpp]
  simp

/-- Witness for C5 at `protocol_version = 47`, `next_state = 3`: the invalid
next_state leaves the connection in Handshaking with the protocol version
recorded, still reading. -/
theorem C5_handshake_next_state_dispatch_witness :
    innerLoop (1 + 1) ([6, 0, 47, 0, 0, 0, 3] ++ []) .Handshaking none [] =
      (if 3 = 1 then innerLoop 1 [] .Status (some 47) []
       else if 3 = 2 then innerLoop 1 [] .Login (some 47) []
       else .more [] .Handshaking (some 47) []) :=
  C5_handshake_next_state_dispatch 1 47 3 [] none [] (by norm_num) (by norm_num)

/-! ## C9: protocol_version is set whenever a StatusRequest is handled -/

/-- `parseHandshake` never produces a StatusRequest. -/
theorem parseHandshake_not_statusRequest :
    ∀ (input r : List Nat), parseHandshake input ≠ .ok r .StatusRequest := by
  intro input r h
  simp only [parseHandshake] at h
  split at h
  · simp at h
  · split at h
    · simp at h
    · split at h
      · simp at h
      · split at h
        · simp at h
        · simp at h

/-- `parse_packet` yields a StatusRequest only in the Status state. -/
theorem parse_packet_statusRequest_state :
    ∀ (input : List Nat) (st : ConnectionState) (r : List Nat),
      parse_packet input st = .ok r .StatusRequest → st = .Status := by
  intro input st r h
  simp only [parse_packet] at h
  split at h
  · simp at h
  · split at h
    · exact absurd h (parseHandshake_not_statusRequest _ _)
    · rfl
    · rfl
    · split at h
      · simp at h
      · simp at h
    · simp at h

/-- The `'parse_packets` loop preserves the protocol_version invariant and
never reaches the `protocol_version.unwrap()` panic: a StatusRequest can
only be parsed in the Status state, which is only ever entered by a
Handshake that stores the protocol version first. -/
theorem innerLoop_pvSafe :
    ∀ (fuel : Nat) (buf : List Nat) (st : ConnectionState) (pv : Option Nat)
      (evs : List Event), pvInvariant st pv →
      (innerLoop fuel buf st pv evs).pvSafe := by
  intro fuel
  induction fuel with
  | zero =>
    intro buf st pv evs hinv
    simp [innerLoop, InnerRes.pvSafe]
  | succ n ih =>
    intro buf st pv evs hinv
    simp only [innerLoop]
    split
    · exact hinv
    · simp [InnerRes.pvSafe]
    · split
      · simp [InnerRes.pvSafe]
      · simp [InnerRes.pvSafe]
      · rename_i heqPacket
        split
        · simp [InnerRes.pvSafe]
        · split
          · split
            · exact ih _ _ _ _ (by intro _ hc; simp at hc)
            · split
              · exact ih _ _ _ _ (by intro _ hc; simp at hc)
              · intro _ hc
                simp at hc
          · split
            · have hst := parse_packet_statusRequest_state _ _ _ heqPacket
              subst hst
              exact absurd rfl (hinv (by simp))
            · exact ih _ _ _ _ hinv
          · exact ih _ _ _ _ hinv
          · exact ih _ _ _ _ hinv

/-- The outer read loop never ends in the protocol_version panic. -/
theorem sessionLoop_no_pvNone :
    ∀ (chunks : List (List Nat)) (buf : List Nat) (st : ConnectionState)
      (pv : Option Nat) (evs : List Event), pvInvariant st pv →
      (sessionLoop chunks buf st pv evs).outcome ≠ .crashed .pvNone := by
  intro chunks
  induction chunks with
  | nil => intro buf st pv evs hinv h; simp [sessionLoop] at h
  | cons chunk chunks ih =>
    intro buf st pv evs hinv h
    simp only [sessionLoop] at h
    split at h
    · simp at h
    · have hsafe := innerLoop_pvSafe ((buf ++ chunk).length + 1) (buf ++ chunk)
        st pv evs hinv
      split at h
      · rename_i heq
        rw [heq] at hsafe
        exact ih _ _ _ _ hsafe h
      · rename_i heq
        rw [heq] at hsafe
        simp only [InnerRes.pvSafe] at hsafe
        simp only [Outcome.crashed.injEq] at h
        exact hsafe h
      · simp at h

/-- C9: for every sequence of client chunks on a responder-mode connection,
the session never fails because of a missing protocol_version: whenever a
StatusRequest is dispatched, the Handshake that moved the connection to
Status has already stored the protocol version, so
`protocol_version.unwrap()` never panics. -/
theorem C9_status_reply_has_protocol_version :
    ∀ chunks : List (List Nat),
      (runSession chunks).outcome ≠ Outcome.crashed CrashKind.pvNone := by
  intro chunks
  exact sessionLoop_no_pvNone chunks [] .Handshaking none [] (by intro h; simp at h)

/-- Witness for C9 at a concrete session (a handshake to Status followed by
a StatusRequest): the outcome is not the protocol_version panic. -/
theorem C9_status_reply_has_protocol_version_witness :
    (runSession [[0x06, 0x00, 0x2f, 0x00, 0x00, 0x00, 0x01],
        [0x01, 0x00]]).outcome ≠ Outcome.crashed CrashKind.pvNone :=
  C9_status_reply_has_protocol_version
    [[0x06, 0x00, 0x2f, 0x00, 0x00, 0x00, 0x01], [0x01, 0x00]]

/-! ## C10: the disconnect reason text -/

/-- C10 counterexample: a Handshake to Login followed by
LoginStart("Alice") produces a DisconnectResponse whose reason is the
source literal — which contains a space after the colon — and therefore is
*not* the section-6 spelling `{"text":"Server is currently in
maintenance"}` the claim asserts. -/
theorem C10_disconnect_reason_not_spec6_counterexample :
    (runSession [[0x06, 0x00, 0x2f, 0x00, 0x00, 0x00, 0x02],
        [0x07, 0x00, 0x05, 0x41, 0x6c, 0x69, 0x63, 0x65]]).events =
      [.DisconnectResponse disconnectReason] ∧
    disconnectReason ≠ specDisconnectReason := ⟨rfl, by decide⟩

/-- Every DisconnectResponse the `'parse_packets` loop ever appends carries
exactly the source's reason literal. -/
theorem innerLoop_disconnect_reason :
    ∀ (fuel : Nat) (buf : List Nat) (st : ConnectionState) (pv : Option Nat)
      (evs : List Event),
      (∀ r, Event.DisconnectResponse r ∈ evs → r = disconnectReason) →
      ∀ r, Event.DisconnectResponse r ∈ (innerLoop fuel buf st pv evs).eventsOf →
        r = disconnectReason := by
  intro fuel
  induction fuel with
  | zero =>
    intro buf st pv evs hevs r hr
    simp only [innerLoop, InnerRes.eventsOf] at hr
    exact hevs r hr
  | succ n ih =>
    intro buf st pv evs hevs r hr
    simp only [innerLoop] at hr
    split at hr
    · exact hevs r (by simpa [InnerRes.eventsOf] using hr)
    · exact hevs r (by simpa [InnerRes.eventsOf] using hr)
    · split at hr
      · exact hevs r (by simpa [InnerRes.eventsOf] using hr)
      · exact hevs r (by simpa [InnerRes.eventsOf] using hr)
      · split at hr
        · exact hevs r (by simpa [InnerRes.eventsOf] using hr)
        · split at hr
          · split at hr
            · exact ih _ _ _ _ hevs r hr
            · split at hr
              · exact ih _ _ _ _ hevs r hr
              · exact hevs r (by simpa [InnerRes.eventsOf] using hr)
          · split at hr
            · exact hevs r (by simpa [InnerRes.eventsOf] using hr)
            · refine ih _ _ _ _ ?_ r hr
              intro r' hr'
              rcases List.mem_append.mp hr' with hmem | hmem
              · exact hevs r' hmem
              · simp at hmem
          · refine ih _ _ _ _ ?_ r hr
            intro r' hr'
            rcases List.mem_append.mp hr' with hmem | hmem
            · exact hevs r' hmem
            · simp at hmem
          · refine ih _ _ _ _ ?_ r hr
            intro r' hr'
            rcases List.mem_append.mp hr' with hmem | hmem
            · exact hevs r' hmem
            · simp at hmem
              exact hmem

/-- Session-level version of `innerLoop_disconnect_reason`. -/
theorem sessionLoop_disconnect_reason :
    ∀ (chunks : List (List Nat)) (buf : List Nat) (st : ConnectionState)
      (pv : Option Nat) (evs : List Event),
      (∀ r, Event.DisconnectResponse r ∈ evs → r = disconnectReason) →
      ∀ r, Event.DisconnectResponse r ∈ (sessionLoop chunks buf st pv evs).events →
        r = disconnectReason := by
  intro chunks
  induction chunks with
  | nil => intro buf st pv evs hevs r hr; exact hevs r hr
  | cons chunk chunks ih =>
    intro buf st pv evs hevs r hr
    simp only [sessionLoop] at hr
    split at hr
    · exact hevs r hr
    · have hinner := innerLoop_disconnect_reason ((buf ++ chunk).length + 1)
        (buf ++ chunk) st pv evs hevs
      split at hr
      · rename_i heq
        rw [heq] at hinner
        exact ih _ _ _ _ (fun r' h' => hinner r' h') r hr
      · rename_i heq
        rw [heq] at hinner
        exact hinner r hr
      · rename_i heq
        rw [heq] at hinner
        exact hinner r hr

/-- C10 amended: every DisconnectResponse a responder-mode session ever
sends — in particular the reply to LoginStart in the Login state — carries
exactly the reason `{"text": "Server is currently in maintenance"}`, the
section-8 spelling with a space after the colon, not the section-6 spelling
without it. -/
theorem C10_disconnect_reason_exact :
    ∀ (chunks : List (List Nat)) (r : String),
      Event.DisconnectResponse r ∈ (runSession chunks).events →
      r = disconnectReason := by
  intro chunks r hr
  exact sessionLoop_disconnect_reason chunks [] .Handshaking none []
    (by intro r' h'; simp at h') r hr

/-- Witness for C10: the login-rejection session emits a DisconnectResponse
whose reason satisfies the theorem. -/
theorem C10_disconnect_reason_exact_witness :
    disconnectReason = disconnectReason :=
  C10_disconnect_reason_exact [[0x06, 0x00, 0x2f, 0x00, 0x00, 0x00, 0x02],
    [0x07, 0x00, 0x05, 0x41, 0x6c, 0x69, 0x63, 0x65]] disconnectReason
    (by decide)

end MaintenanceProxy
